import Mathlib

/-!
Verification of the Twin Cities visualization core (src/app/src/App.tsx).

Shallow embedding: numbers that JavaScript holds as doubles are modelled as
exact rationals (ℚ); all values appearing in the relevant code paths are
small decimal constants, so no floating-point rounding is observable there.
Strings are Lean `String`s; JS `toLowerCase` is modelled per-character
(`Char.toLower`), which agrees with it on the ASCII data the app handles.
-/

namespace TwinCities

/-! ### CSV load stage (App.tsx lines 118-131)

After `Papa.parse` with `dynamicTyping`, each coordinate cell is a number,
`NaN`, or absent (`null`/`undefined`).  The load filter keeps a row when all
four coordinate fields are JS-truthy: `p.lat1 && p.lng1 && p.lat2 && p.lng2`.
-/

/-- A coordinate cell as produced by the CSV parser with dynamic typing. -/
inductive JSVal where
  | missing : JSVal
  | nan : JSVal
  | num : ℚ → JSVal
deriving DecidableEq, Repr

/-- JS truthiness of a coordinate cell: `null`, `undefined`, `NaN` and `0`
are falsy; every other number is truthy. -/
def JSVal.truthy : JSVal → Bool
  | .missing => false
  | .nan => false
  | .num q => q != 0

/-- The cell holds a finite number (any rational, zero included). -/
def JSVal.isFiniteNum : JSVal → Bool
  | .num _ => true
  | _ => false

/-- A raw CSV row before validation (only the coordinate cells matter to the
load filter). -/
structure RawPair where
  lat1 : JSVal
  lng1 : JSVal
  lat2 : JSVal
  lng2 : JSVal
deriving DecidableEq, Repr

/-- Models `result.data.filter((p) => p.lat1 && p.lng1 && p.lat2 && p.lng2)`
(App.tsx line 128). -/
def loadFilter (rows : List RawPair) : List RawPair :=
  rows.filter fun p =>
    p.lat1.truthy && p.lng1.truthy && p.lat2.truthy && p.lng2.truthy

/-! ### Pair records and the search filter (App.tsx lines 13-22, 140-150) -/

/-- A validated pair record (interface `CityPair`). -/
structure CityPair where
  city1 : String
  country1 : String
  lat1 : ℚ
  lng1 : ℚ
  city2 : String
  country2 : String
  lat2 : ℚ
  lng2 : ℚ
deriving DecidableEq, Repr

/-- JS `s || ""` on a string value: the empty string is falsy, so this is the
identity on strings; it is kept for fidelity to the source. -/
def jsOrEmpty (s : String) : String :=
  if s = "" then "" else s

/-- Per-character lower-casing, modelling `String.prototype.toLowerCase` on
the ASCII range. -/
def toLowerStr (s : String) : String :=
  s.map Char.toLower

/-- Tests whether `sub` begins the list `s` (helper for the substring test). -/
def isStartOf : List Char → List Char → Bool
  | [], _ => true
  | _ :: _, [] => false
  | a :: as, b :: bs => a = b && isStartOf as bs

/-- Models `s.includes(sub)` on the underlying character lists: `sub` occurs
contiguously somewhere in `s`. -/
def hasSub : List Char → List Char → Bool
  | [], sub => isStartOf sub []
  | c :: t, sub => isStartOf sub (c :: t) || hasSub t sub

/-- Models `s.includes(sub)` for strings. -/
def strIncludes (s sub : String) : Bool :=
  hasSub s.data sub.data

/-- The per-pair predicate of the search filter (App.tsx lines 143-149),
applied with `lower = debouncedSearch.toLowerCase()`. -/
def pairMatch (lower : String) (p : CityPair) : Bool :=
  strIncludes (toLowerStr (jsOrEmpty p.city1)) lower ||
  strIncludes (toLowerStr (jsOrEmpty p.city2)) lower ||
  strIncludes (toLowerStr (jsOrEmpty p.country1)) lower ||
  strIncludes (toLowerStr (jsOrEmpty p.country2)) lower

/-- Models `filteredPairs` (App.tsx lines 140-150): the empty debounced term is
falsy and short-circuits to the raw pair list. -/
def filteredPairs (debouncedSearch : String) (pairs : List CityPair) : List CityPair :=
  if debouncedSearch = "" then pairs
  else pairs.filter (pairMatch (toLowerStr debouncedSearch))

/-- The spec's wording for a match: the term is a case-insensitive substring
of city1, city2, country1 or country2. -/
def specMatch (term : String) (p : CityPair) : Bool :=
  strIncludes (toLowerStr p.city1) (toLowerStr term) ||
  strIncludes (toLowerStr p.city2) (toLowerStr term) ||
  strIncludes (toLowerStr p.country1) (toLowerStr term) ||
  strIncludes (toLowerStr p.country2) (toLowerStr term)

/-! ### Node builder (App.tsx lines 153-178)

The JS `Map` keyed by the template string `` `${lat}|${lng}` `` is modelled
as an insertion-ordered association list keyed by the exact `(lat, lng)`
pair (number-to-string conversion is injective and `|` cannot occur inside
a number, so the string key and the rational pair key identify the same
nodes). -/

/-- Models interface `CityNode` (App.tsx lines 24-29); `coords` is `(lng, lat)`. -/
structure CityNode where
  name : String
  country : String
  coords : ℚ × ℚ
  connections : ℕ
deriving DecidableEq, Repr

/-- The node map: JS `Map` as an insertion-ordered association list. -/
abbrev CMap := List ((ℚ × ℚ) × CityNode)

/-- Coordinate key of endpoint 1: `` `${p.lat1}|${p.lng1}` ``. -/
def key1 (p : CityPair) : ℚ × ℚ := (p.lat1, p.lng1)

/-- Coordinate key of endpoint 2: `` `${p.lat2}|${p.lng2}` ``. -/
def key2 (p : CityPair) : ℚ × ℚ := (p.lat2, p.lng2)

/-- The fresh node inserted for endpoint 1 (App.tsx lines 159-164). -/
def node1 (p : CityPair) : CityNode :=
  ⟨p.city1, jsOrEmpty p.country1, (p.lng1, p.lat1), 0⟩

/-- The fresh node inserted for endpoint 2 (App.tsx lines 168-173). -/
def node2 (p : CityPair) : CityNode :=
  ⟨p.city2, jsOrEmpty p.country2, (p.lng2, p.lat2), 0⟩

/-- Models `map.has(k)`. -/
def mapHas (m : CMap) (k : ℚ × ℚ) : Bool :=
  m.any fun e => e.1 = k

/-- Models `if (!map.has(k)) map.set(k, n)`: insert at the end when absent. -/
def ensure (m : CMap) (k : ℚ × ℚ) (n : CityNode) : CMap :=
  if mapHas m k then m else m ++ [(k, n)]

/-- Models `map.get(k)!.connections++`: increment the connection count of the entry
with key `k`. -/
def bump (m : CMap) (k : ℚ × ℚ) : CMap :=
  m.map fun e =>
    if e.1 = k then (e.1, { e.2 with connections := e.2.connections + 1 }) else e

/-- Processing one pair (the body of the `forEach` at App.tsx lines 155-176). -/
def addPair (m : CMap) (p : CityPair) : CMap :=
  let m1 := bump (ensure m (key1 p) (node1 p)) (key1 p)
  bump (ensure m1 (key2 p) (node2 p)) (key2 p)

/-- The node map built from a starting map and a pair list. -/
def buildFrom (m : CMap) (l : List CityPair) : CMap :=
  l.foldl addPair m

/-- The node map built by the `cities` memo from the filtered pairs. -/
def buildCities (l : List CityPair) : CMap :=
  buildFrom [] l

/-- Sum of `connections` over all nodes of the map (over `map.values()`). -/
def sumConn (m : CMap) : ℕ :=
  (m.map fun e => e.2.connections).sum

/-- Total `connections` recorded under key `k` (sum over matching entries;
keys are unique in every map the builder constructs). -/
def getConn (m : CMap) (k : ℚ × ℚ) : ℕ :=
  ((m.filter fun e => e.1 = k).map fun e => e.2.connections).sum

/-- Number of entries carrying key `k`. -/
def keyCount (m : CMap) (k : ℚ × ℚ) : ℕ :=
  (m.filter fun e => e.1 = k).length

/-- Models `map.get(k)` as a lookup of the stored node. -/
def lookupNode (m : CMap) (k : ℚ × ℚ) : Option CityNode :=
  (m.find? fun e => e.1 = k).map fun e => e.2

/-- Endpoint slots of `l` that carry key `k`: each pair contributes one for
each of its two endpoints matching `k` (a self-loop contributes two). -/
def touchSlots (l : List CityPair) (k : ℚ × ℚ) : ℕ :=
  (l.map fun p =>
    (if key1 p = k then 1 else 0) + (if key2 p = k then 1 else 0)).sum

/-- Number of pairs of `l` touching key `k` (each counted once). -/
def touchCount (l : List CityPair) (k : ℚ × ℚ) : ℕ :=
  (l.filter fun p => key1 p = k ∨ key2 p = k).length

/-- Number of self-loop pairs of `l` at key `k`. -/
def selfCount (l : List CityPair) (k : ℚ × ℚ) : ℕ :=
  (l.filter fun p => key1 p = k ∧ key2 p = k).length

/-- Models `findPairsForCity` (App.tsx lines 216-225): filter the pairs whose
either endpoint equals the city's `coords = (lng, lat)`. -/
def findPairsForCity (l : List CityPair) (city : CityNode) : List CityPair :=
  l.filter fun p =>
    (p.lng1 = city.coords.1 ∧ p.lat1 = city.coords.2) ∨
    (p.lng2 = city.coords.1 ∧ p.lat2 = city.coords.2)

/-! ### Zoom and pan (App.tsx lines 48-49, 56-63, 109-115)

`handleWheel` multiplies zoom by 0.85 (`deltaY > 0`) or 1.18 and clamps via
`Math.min(Math.max(z * delta, 0.5), 20)`; `zoomIn` is
`Math.min(z * 1.4, 20)`; `zoomOut` is `Math.max(z * 0.7, 0.5)`.  None of
them touch `pan`. -/

/-- The view transform state: `zoom` and `pan`. -/
structure View where
  zoom : ℚ
  pan : ℚ × ℚ
deriving DecidableEq, Repr

/-- The zoom operations the wheel handler and the two buttons perform;
`wheel true` is a scroll with `deltaY > 0`. -/
inductive ViewOp where
  | wheel : Bool → ViewOp
  | zoomIn : ViewOp
  | zoomOut : ViewOp
deriving DecidableEq, Repr

/-- One zoom operation applied to the view. -/
def applyOp (v : View) : ViewOp → View
  | .wheel deltaYPos =>
      { v with zoom := min (max (v.zoom * (if deltaYPos then 0.85 else 1.18)) 0.5) 20 }
  | .zoomIn => { v with zoom := min (v.zoom * 1.4) 20 }
  | .zoomOut => { v with zoom := max (v.zoom * 0.7) 0.5 }

/-- Initial view: `zoom = 1`, `pan = (0, 0)` (App.tsx lines 48-49). -/
def initView : View := ⟨1, (0, 0)⟩

/-- Running a sequence of zoom operations from the initial state. -/
def runOps (ops : List ViewOp) : View :=
  ops.foldl applyOp initView

/-! ### Drag gesture state machine (App.tsx lines 51-102, 433-444)

`handleMouseMove` computes the displacement in raw client pixels, skips the
event while not yet dragging and `|dx| + |dy| < 3`, and otherwise sets the
drag flag and updates `pan` by the displacement scaled by
`960 / rect.width` and `500 / rect.height`.  `handleMouseUp` resets the drag
flag only after the click event has run, so `handleCityClick` still observes
it. -/

/-- The rendered size of the map container element (`getBoundingClientRect`). -/
structure Container where
  width : ℚ
  height : ℚ
deriving DecidableEq, Repr

/-- The refs and state driving the pan/drag gesture. -/
structure DragState where
  isPanning : Bool
  isDragging : Bool
  panStart : ℚ × ℚ
  panOrigin : ℚ × ℚ
  pan : ℚ × ℚ
deriving DecidableEq, Repr

/-- State before any gesture. -/
def initDrag : DragState := ⟨false, false, (0, 0), (0, 0), (0, 0)⟩

/-- Models `handleMouseDown` (App.tsx lines 65-75): only for button 0 or 1. -/
def mouseDown (s : DragState) (button : ℕ) (pos : ℚ × ℚ) : DragState :=
  if button = 0 ∨ button = 1 then
    { s with isPanning := true, isDragging := false, panStart := pos, panOrigin := s.pan }
  else s

/-- Models `handleMouseMove` (App.tsx lines 77-93): the 3-unit threshold is tested
on the raw client-pixel displacement; the scale factors apply only to the
pan update. -/
def mouseMove (cont : Container) (s : DragState) (pos : ℚ × ℚ) : DragState :=
  if ¬s.isPanning then s
  else
    let dx := pos.1 - s.panStart.1
    let dy := pos.2 - s.panStart.2
    if ¬s.isDragging ∧ |dx| + |dy| < 3 then s
    else
      let scaleX := 960 / cont.width
      let scaleY := 500 / cont.height
      { s with
        isDragging := true,
        pan := (s.panOrigin.1 + dx * scaleX, s.panOrigin.2 + dy * scaleY) }

/-- Models `handleMouseUp` (App.tsx lines 95-102): leaves `isDragging` set for the
click handler that fires in the same turn (the flag is cleared only by a
zero-delay timer afterwards). -/
def mouseUp (s : DragState) : DragState :=
  { s with isPanning := false }

/-- Models `handleCityClick` (App.tsx lines 433-444) applied to the selection,
with cities identified by an id: ignored while the drag flag is set,
otherwise toggles. -/
def handleCityClick (s : DragState) (sel : Option ℕ) (city : ℕ) : Option ℕ :=
  if s.isDragging then sel
  else if sel = some city then none
  else some city

/-! ### Label placement engine (App.tsx lines 292-349 and 373-427)

Both the selection pass (`selectedConnectedCities`) and the search pass
(`searchLabels`) run the identical greedy algorithm: for each anchor in
order, try eight fixed offsets, else scan downward in `lh + pad` steps while
`dy < 200`, else keep the default position `(px + 7, py - 8)`.  The
selection pass also stores an `idx` field in each placed rectangle, which
the overlap test never reads, so one embedding covers both passes. -/

/-- A placed label rectangle. -/
structure LRect where
  x : ℚ
  y : ℚ
  w : ℚ
  h : ℚ
deriving DecidableEq, Repr

/-- An anchor node for the pass: label text and projected point. -/
structure Anchor where
  name : String
  px : ℚ
  py : ℚ
deriving DecidableEq, Repr

/-- Label height `lh = 15`. -/
def lh : ℚ := 15

/-- Padding between labels `pad = 2`. -/
def pad : ℚ := 2

/-- Label width: `c.name.length * 5.5 + 14`. -/
def labelW (name : String) : ℚ :=
  name.length * 5.5 + 14

/-- The overlap test of the inner `placedRects.some(...)` callback, for a
candidate label at `(cx, cy)` of width `lw` against a placed rectangle. -/
def overlapsB (cx cy lw : ℚ) (r : LRect) : Bool :=
  decide (cx < r.x + r.w + pad) && decide (cx + lw + pad > r.x) &&
  decide (cy < r.y + r.h + pad) && decide (cy + lh + pad > r.y)

/-- Models `placedRects.some((r) => ...)`. -/
def anyOverlap (placed : List LRect) (cx cy lw : ℚ) : Bool :=
  placed.any (overlapsB cx cy lw)

/-- The eight candidate offsets, in source order (App.tsx lines 305-314). -/
def offsets (lw : ℚ) : List (ℚ × ℚ) :=
  [(7, -8), (7, 6), (-lw - 5, -8), (-lw - 5, 6),
   (7, -8 - lh - pad), (7, 6 + lh + pad),
   (-lw - 5, -8 - lh - pad), (-lw - 5, 6 + lh + pad)]

/-- The fallback scan positions: `for (let dy = 0; dy < 200; dy += lh + pad)`
unrolled with enough fuel to cover the loop. -/
def scanDys : ℕ → ℚ → List ℚ
  | 0, _ => []
  | fuel + 1, dy => if dy < 200 then dy :: scanDys fuel (dy + (lh + pad)) else []

/-- Placing one label given the rectangles placed so far: first free of the
eight offsets, else first free fallback slot, else the default position
`(px + 7, py - 8)` that `bestX`/`bestY` were initialized to. -/
def placeOne (placed : List LRect) (c : Anchor) : LRect :=
  let lw := labelW c.name
  match (offsets lw).find? (fun o => !anyOverlap placed (c.px + o.1) (c.py + o.2) lw) with
  | some o => ⟨c.px + o.1, c.py + o.2, lw, lh⟩
  | none =>
    match (scanDys 200 0).find? (fun dy => !anyOverlap placed (c.px + 7) (c.py + dy) lw) with
    | some dy => ⟨c.px + 7, c.py + dy, lw, lh⟩
    | none => ⟨c.px + 7, c.py - 8, lw, lh⟩

/-- One iteration of the outer loop: place the label and push its rectangle. -/
def stepPlace (placed : List LRect) (c : Anchor) : List LRect :=
  placed ++ [placeOne placed c]

/-- The whole pass from an initial placed set. -/
def placeFrom (placed : List LRect) (l : List Anchor) : List LRect :=
  l.foldl stepPlace placed

/-- The whole pass: placed rectangles of all anchors, in input order. -/
def placeAll (l : List Anchor) : List LRect :=
  placeFrom [] l

/-- Every step of the pass found a free slot (candidate or fallback). -/
def allOkB : List LRect → List Anchor → Bool
  | _, [] => true
  | placed, c :: l =>
      let lw := labelW c.name
      (((offsets lw).find? fun o => !anyOverlap placed (c.px + o.1) (c.py + o.2) lw).isSome ||
       ((scanDys 200 0).find? fun dy => !anyOverlap placed (c.px + 7) (c.py + dy) lw).isSome) &&
      allOkB (stepPlace placed c) l

/-- Two rectangles whose axis-aligned bounds overlap by more than the
padding on both axes (the spec's forbidden configuration). -/
def overlapMoreThanPad (r s : LRect) : Prop :=
  r.x + pad < s.x + s.w ∧ s.x + pad < r.x + r.w ∧
  r.y + pad < s.y + s.h ∧ s.y + pad < r.y + r.h

/-- Separation as guaranteed by a passed overlap test: on some axis the two
rectangles are at least `pad` apart. -/
def sepRect (r s : LRect) : Prop :=
  r.x + r.w + pad ≤ s.x ∨ s.x + s.w + pad ≤ r.x ∨
  r.y + r.h + pad ≤ s.y ∨ s.y + s.h + pad ≤ r.y

/-! ### Concrete inputs used by witnesses and counterexamples -/

/-- A pair record `("A", "X", 10, 10, "B", "Y", 20, 20)`. -/
def pairAB : CityPair := ⟨"A", "X", 10, 10, "B", "Y", 20, 20⟩

/-- A pair record reusing the coordinate `(10, 10)` of `pairAB`'s first
endpoint under a different name. -/
def pairA2C : CityPair := ⟨"A2", "X2", 10, 10, "C", "Z", 30, 30⟩

/-- A self-loop pair: both endpoints at `(10, 10)`. -/
def pairSelf : CityPair := ⟨"A", "X", 10, 10, "A", "X", 10, 10⟩

/-- The node the builder stores at key `(10, 10)` for the pair list
`[pairSelf, pairAB]`. -/
def nodeA3 : CityNode := ⟨"A", "X", (10, 10), 3⟩

/-- Sixteen anchors sharing one projected point (e.g. sixteen twins of a
selected city geocoded to the same spot). -/
def anchors16 : List Anchor := List.replicate 16 ⟨"ab", 0, 0⟩

/-- Two far-apart anchors. -/
def anchors2 : List Anchor := [⟨"ab", 0, 0⟩, ⟨"cd", 100, 100⟩]

/-! ## Theorems -/

/-! ### C8: the empty search term is the identity filter -/

/-- Claim C8: For every loaded pair set, filtering with an empty (debounced)
search term returns exactly the unfiltered pair set. -/
theorem c8_empty_search_identity (pairs : List CityPair) :
    filteredPairs "" pairs = pairs := by
  simp [filteredPairs]

/-! ### C9: non-empty search term semantics -/

lemma jsOrEmpty_eq (s : String) : jsOrEmpty s = s := by
  unfold jsOrEmpty
  split <;> simp_all

lemma pairMatch_eq_specMatch (term : String) (p : CityPair) :
    pairMatch (toLowerStr term) p = specMatch term p := by
  simp [pairMatch, specMatch, jsOrEmpty_eq]

/-- Claim C9: For every pair set and non-empty search term, a pair is in the
filtered set iff the term is a case-insensitive substring of city1, city2,
country1 or country2 of that pair; a term matching no pair yields the empty
filtered set. -/
theorem c9_search_filter_semantics (term : String) (pairs : List CityPair)
    (hterm : term ≠ "") :
    (∀ p, p ∈ filteredPairs term pairs ↔ p ∈ pairs ∧ specMatch term p = true) ∧
    ((∀ q ∈ pairs, specMatch term q = false) → filteredPairs term pairs = []) := by
  unfold filteredPairs
  rw [if_neg hterm]
  constructor
  · intro p
    rw [List.mem_filter, pairMatch_eq_specMatch]
  · intro hnone
    rw [List.filter_eq_nil_iff]
    intro q hq
    rw [pairMatch_eq_specMatch]
    simp [hnone q hq]

/-- Witness for C9 at a concrete non-empty term and one-pair list. -/
theorem c9_search_filter_semantics_witness :
    (∀ p, p ∈ filteredPairs "x" [pairAB] ↔ p ∈ [pairAB] ∧ specMatch "x" p = true) ∧
    ((∀ q ∈ [pairAB], specMatch "x" q = false) → filteredPairs "x" [pairAB] = []) :=
  c9_search_filter_semantics "x" [pairAB] (by decide)

/-! ### C3: the load-time validity filter -/

/-- Claim C3 counterexample: A record whose four coordinates are all finite
numbers, one of them `0`, is nonetheless discarded by the load filter
(JS truthiness: `0` is falsy). -/
theorem c3_counterexample :
    loadFilter [⟨JSVal.num 0, JSVal.num 1, JSVal.num 2, JSVal.num 3⟩] = [] ∧
    (JSVal.num 0).isFiniteNum = true ∧ (JSVal.num 1).isFiniteNum = true ∧
    (JSVal.num 2).isFiniteNum = true ∧ (JSVal.num 3).isFiniteNum = true := by
  constructor
  · rfl
  · exact ⟨rfl, rfl, rfl, rfl⟩

lemma truthy_iff (v : JSVal) :
    v.truthy = true ↔ v.isFiniteNum = true ∧ v ≠ JSVal.num 0 := by
  cases v with
  | missing => simp [JSVal.truthy, JSVal.isFiniteNum]
  | nan => simp [JSVal.truthy, JSVal.isFiniteNum]
  | num q =>
    simp only [JSVal.truthy, JSVal.isFiniteNum, bne_iff_ne, ne_eq, true_and]
    constructor
    · intro h hq
      exact h (by injection hq)
    · intro h hq
      exact h (by rw [hq])

/-- Claim C3, amended: A pair record survives the load filter iff every
coordinate field is a finite number *different from zero*: missing and
non-finite coordinates are discarded as the claim states, but so is any
record with a coordinate exactly `0`, because the filter tests JS
truthiness. -/
theorem c3_load_filter_amended (rows : List RawPair) (p : RawPair) :
    p ∈ loadFilter rows ↔
      p ∈ rows ∧
      (p.lat1.isFiniteNum = true ∧ p.lat1 ≠ JSVal.num 0) ∧
      (p.lng1.isFiniteNum = true ∧ p.lng1 ≠ JSVal.num 0) ∧
      (p.lat2.isFiniteNum = true ∧ p.lat2 ≠ JSVal.num 0) ∧
      (p.lng2.isFiniteNum = true ∧ p.lng2 ≠ JSVal.num 0) := by
  unfold loadFilter
  rw [List.mem_filter]
  simp only [Bool.and_eq_true, truthy_iff]
  tauto

/-! ### C4: zoom clamping -/

lemma zoom_step_bounds (v : View) (op : ViewOp)
    (h1 : 0.5 ≤ v.zoom) (h2 : v.zoom ≤ 20) :
    0.5 ≤ (applyOp v op).zoom ∧ (applyOp v op).zoom ≤ 20 := by
  cases op with
  | wheel d =>
    refine ⟨le_min (le_max_right _ _) (by norm_num), min_le_right _ _⟩
  | zoomIn =>
    refine ⟨le_min (by linarith) (by norm_num), min_le_right _ _⟩
  | zoomOut =>
    refine ⟨le_max_right _ _, max_le (by linarith) (by norm_num)⟩

lemma zoom_fold_bounds (ops : List ViewOp) (v : View)
    (h1 : 0.5 ≤ v.zoom) (h2 : v.zoom ≤ 20) :
    0.5 ≤ (ops.foldl applyOp v).zoom ∧ (ops.foldl applyOp v).zoom ≤ 20 := by
  induction ops generalizing v with
  | nil => exact ⟨h1, h2⟩
  | cons op ops ih =>
    obtain ⟨g1, g2⟩ := zoom_step_bounds v op h1 h2
    exact ih (applyOp v op) g1 g2

/-- Claim C4: After any finite sequence of wheel, zoom-in and zoom-out
operations from the initial state the zoom stays in `[0.5, 20]`, and a
wheel event leaves the pan unchanged. -/
theorem c4_zoom_clamped (ops : List ViewOp) :
    (0.5 ≤ (runOps ops).zoom ∧ (runOps ops).zoom ≤ 20) ∧
    (∀ (v : View) (d : Bool), (applyOp v (ViewOp.wheel d)).pan = v.pan) := by
  refine ⟨zoom_fold_bounds ops initView (by norm_num [initView]) (by norm_num [initView]), ?_⟩
  intro v d
  rfl

/-! ### C5: drag threshold versus click-to-select -/

lemma mouseMove_panStart (cont : Container) (s : DragState) (m : ℚ × ℚ) :
    (mouseMove cont s m).panStart = s.panStart := by
  unfold mouseMove
  split
  · rfl
  · dsimp only
    split <;> rfl

lemma mouseMove_isPanning (cont : Container) (s : DragState) (m : ℚ × ℚ) :
    (mouseMove cont s m).isPanning = s.isPanning := by
  unfold mouseMove
  split
  · rfl
  · dsimp only
    split <;> rfl

lemma mouseMove_isDragging (cont : Container) (s : DragState) (m : ℚ × ℚ)
    (hp : s.isPanning = true) :
    (mouseMove cont s m).isDragging =
      (s.isDragging || decide (3 ≤ |m.1 - s.panStart.1| + |m.2 - s.panStart.2|)) := by
  unfold mouseMove
  rw [if_neg (by simp [hp])]
  by_cases hd : s.isDragging = true
  · rw [if_neg (by simp [hd])]
    simp [hd]
  · replace hd : s.isDragging = false := by simpa using hd
    by_cases hlt : |m.1 - s.panStart.1| + |m.2 - s.panStart.2| < 3
    · rw [if_pos ⟨by simp [hd], hlt⟩]
      simp [hd, not_le.mpr hlt]
    · rw [if_neg (by tauto)]
      simp [hd, not_lt.mp hlt]

lemma drag_fold (cont : Container) (moves : List (ℚ × ℚ)) (s : DragState)
    (hp : s.isPanning = true) :
    (moves.foldl (mouseMove cont) s).isDragging =
      (s.isDragging ||
        moves.any fun m => decide (3 ≤ |m.1 - s.panStart.1| + |m.2 - s.panStart.2|)) ∧
    (moves.foldl (mouseMove cont) s).panStart = s.panStart ∧
    (moves.foldl (mouseMove cont) s).isPanning = true := by
  induction moves generalizing s with
  | nil => simp [hp]
  | cons m moves ih =>
    have hp' : (mouseMove cont s m).isPanning = true := by
      rw [mouseMove_isPanning]; exact hp
    obtain ⟨h1, h2, h3⟩ := ih (mouseMove cont s m) hp'
    refine ⟨?_, by rw [List.foldl_cons, h2, mouseMove_panStart], by simpa using h3⟩
    rw [List.foldl_cons, h1, mouseMove_panStart, mouseMove_isDragging cont s m hp,
      List.any_cons, Bool.or_assoc]

/-- Claim C5 counterexample: With the map element rendered at 480×250 (half
the 960×500 internal canvas on each axis, so scale factors are 2), a
pointer-down at the origin, a move to `(2, 0)` and a pointer-up produce a
click that *does* toggle the selection, even though the displacement scaled
to internal map units is `2 · (960/480) = 4 > 3`: the code tests the 3-unit
threshold on the raw pixel displacement, not the scaled one. -/
theorem c5_counterexample :
    handleCityClick
        (mouseUp (mouseMove ⟨480, 250⟩ (mouseDown initDrag 0 (0, 0)) (2, 0)))
        none 0 = some 0 ∧
    |((2 : ℚ) - 0) * (960 / 480)| + |((0 : ℚ) - 0) * (500 / 250)| > 3 := by
  constructor
  · norm_num [handleCityClick, mouseUp, mouseMove, mouseDown, initDrag]
  · norm_num

/-- Claim C5, amended: For every pointer gesture (down with the primary
button at `p0`, any finite sequence of moves, up, then a click on a city
marker): the click toggles the selection iff every move's displacement from
`p0` stays below the 3-unit threshold measured in *raw screen pixels*
(`|dx| + |dy| < 3`, before any scaling); otherwise the selection is left
unchanged.  Scaling from screen pixels to internal map units applies only
to the pan update, not to the threshold. -/
theorem c5_drag_suppresses_click (cont : Container) (p0 : ℚ × ℚ)
    (moves : List (ℚ × ℚ)) (sel : Option ℕ) (city : ℕ) :
    handleCityClick
        (mouseUp (moves.foldl (mouseMove cont) (mouseDown initDrag 0 p0)))
        sel city =
      if ∀ m ∈ moves, |m.1 - p0.1| + |m.2 - p0.2| < 3 then
        (if sel = some city then none else some city)
      else sel := by
  have hdown : mouseDown initDrag 0 p0 = ⟨true, false, p0, (0, 0), (0, 0)⟩ := by
    simp [mouseDown, initDrag]
  rw [hdown]
  obtain ⟨h1, _, _⟩ := drag_fold cont moves ⟨true, false, p0, (0, 0), (0, 0)⟩ rfl
  unfold handleCityClick mouseUp
  dsimp only
  by_cases hall : ∀ m ∈ moves, |m.1 - p0.1| + |m.2 - p0.2| < 3
  · rw [if_pos hall]
    have hfalse :
        (moves.foldl (mouseMove cont)
          (⟨true, false, p0, (0, 0), (0, 0)⟩ : DragState)).isDragging = false := by
      rw [h1]
      simp only [Bool.false_or, List.any_eq_false]
      intro m hm
      simpa using hall m hm
    rw [if_neg (by simp only [hfalse]; simp)]
  · rw [if_neg hall]
    have htrue :
        (moves.foldl (mouseMove cont)
          (⟨true, false, p0, (0, 0), (0, 0)⟩ : DragState)).isDragging = true := by
      rw [h1]
      push_neg at hall
      obtain ⟨m, hm, hge⟩ := hall
      simp only [Bool.false_or, List.any_eq_true]
      exact ⟨m, hm, by simpa using hge⟩
    rw [if_pos htrue]

/-! ### Node-builder lemmas (towards C2, C6, C10) -/

/-- Key uniqueness: every key occurs in at most one entry.  The builder
maintains this by only appending keys that are absent. -/
def ND (m : CMap) : Prop := ∀ k, keyCount m k ≤ 1

lemma keyCount_cons (e : (ℚ × ℚ) × CityNode) (m : CMap) (k : ℚ × ℚ) :
    keyCount (e :: m) k = (if e.1 = k then 1 else 0) + keyCount m k := by
  by_cases h : e.1 = k <;> simp [keyCount, h] <;> omega

lemma getConn_cons (e : (ℚ × ℚ) × CityNode) (m : CMap) (k : ℚ × ℚ) :
    getConn (e :: m) k = (if e.1 = k then e.2.connections else 0) + getConn m k := by
  by_cases h : e.1 = k <;> simp [getConn, h]

lemma sumConn_cons (e : (ℚ × ℚ) × CityNode) (m : CMap) :
    sumConn (e :: m) = e.2.connections + sumConn m := by
  simp [sumConn]

lemma ND_tail (e : (ℚ × ℚ) × CityNode) (m : CMap) (h : ND (e :: m)) : ND m := by
  intro k
  have := h k
  rw [keyCount_cons] at this
  omega

lemma mapHas_iff (m : CMap) (k : ℚ × ℚ) : mapHas m k = true ↔ keyCount m k ≠ 0 := by
  induction m with
  | nil => simp [mapHas, keyCount]
  | cons e m ih =>
    rw [keyCount_cons]
    by_cases h : e.1 = k <;> simp [mapHas, h] at ih ⊢ <;> simpa [List.any_eq_true] using ih

lemma keyCount_bump (m : CMap) (kb k : ℚ × ℚ) :
    keyCount (bump m kb) k = keyCount m k := by
  induction m with
  | nil => rfl
  | cons e m ih =>
    show keyCount (_ :: bump m kb) k = _
    rw [keyCount_cons, keyCount_cons, ih]
    by_cases h : e.1 = kb <;> simp [h]

lemma getConn_bump (m : CMap) (kb k : ℚ × ℚ) :
    getConn (bump m kb) k = getConn m k + (if k = kb then keyCount m k else 0) := by
  induction m with
  | nil => simp [bump, getConn, keyCount]
  | cons e m ih =>
    show getConn
      ((if e.1 = kb then (e.1, { e.2 with connections := e.2.connections + 1 }) else e)
        :: bump m kb) k = _
    by_cases hb : e.1 = kb
    · rw [if_pos hb, getConn_cons, getConn_cons, keyCount_cons, ih]
      dsimp only
      by_cases hk : e.1 = k
      · have hkb : k = kb := by rw [← hk]; exact hb
        simp only [if_pos hk, if_pos hkb]
        omega
      · simp only [if_neg hk]
        by_cases hkb : k = kb
        · simp only [if_pos hkb]
          omega
        · simp only [if_neg hkb]
          omega
    · rw [if_neg hb, getConn_cons, getConn_cons, keyCount_cons, ih]
      by_cases hk : e.1 = k
      · have hkb : ¬k = kb := by
          intro hc
          exact hb (by rw [hk, hc])
        simp only [if_pos hk, if_neg hkb]
        omega
      · simp only [if_neg hk]
        by_cases hkb : k = kb
        · simp only [if_pos hkb]
          omega
        · simp only [if_neg hkb]
          omega

lemma sumConn_bump (m : CMap) (kb : ℚ × ℚ) :
    sumConn (bump m kb) = sumConn m + keyCount m kb := by
  induction m with
  | nil => rfl
  | cons e m ih =>
    show sumConn (_ :: bump m kb) = _
    rw [sumConn_cons, sumConn_cons, keyCount_cons, ih]
    by_cases hb : e.1 = kb <;> simp [hb] <;> omega

lemma keyCount_append_one (m : CMap) (k : ℚ × ℚ) (n : CityNode) (k' : ℚ × ℚ) :
    keyCount (m ++ [(k, n)]) k' = keyCount m k' + (if k = k' then 1 else 0) := by
  induction m with
  | nil => by_cases h : k = k' <;> simp [keyCount, h]
  | cons e m ih =>
    rw [List.cons_append, keyCount_cons, keyCount_cons, ih]
    omega

lemma getConn_append_one (m : CMap) (k : ℚ × ℚ) (n : CityNode) (k' : ℚ × ℚ) :
    getConn (m ++ [(k, n)]) k' = getConn m k' + (if k = k' then n.connections else 0) := by
  induction m with
  | nil => by_cases h : k = k' <;> simp [getConn, h]
  | cons e m ih =>
    rw [List.cons_append, getConn_cons, getConn_cons, ih]
    omega

lemma sumConn_append_one (m : CMap) (k : ℚ × ℚ) (n : CityNode) :
    sumConn (m ++ [(k, n)]) = sumConn m + n.connections := by
  induction m with
  | nil => simp [sumConn]
  | cons e m ih =>
    rw [List.cons_append, sumConn_cons, sumConn_cons, ih]
    omega

lemma ND_ensure (m : CMap) (k : ℚ × ℚ) (n : CityNode) (h : ND m) :
    ND (ensure m k n) := by
  unfold ensure
  split
  · exact h
  · next hhas =>
    intro k'
    rw [keyCount_append_one]
    rcases eq_or_ne k k' with rfl | hne
    · have : keyCount m k = 0 := by
        by_contra hc
        exact hhas ((mapHas_iff m k).mpr hc)
      simp [this]
    · simp [hne, h k']

lemma keyCount_ensure_self (m : CMap) (k : ℚ × ℚ) (n : CityNode) (h : ND m) :
    keyCount (ensure m k n) k = 1 := by
  unfold ensure
  split
  · next hhas =>
    have h1 := (mapHas_iff m k).mp hhas
    have h2 := h k
    omega
  · next hhas =>
    have : keyCount m k = 0 := by
      by_contra hc
      exact hhas ((mapHas_iff m k).mpr hc)
    rw [keyCount_append_one]
    simp [this]

lemma getConn_ensure (m : CMap) (k : ℚ × ℚ) (n : CityNode) (hn : n.connections = 0)
    (k' : ℚ × ℚ) : getConn (ensure m k n) k' = getConn m k' := by
  unfold ensure
  split
  · rfl
  · rw [getConn_append_one, hn]
    simp

lemma sumConn_ensure (m : CMap) (k : ℚ × ℚ) (n : CityNode) (hn : n.connections = 0) :
    sumConn (ensure m k n) = sumConn m := by
  unfold ensure
  split
  · rfl
  · rw [sumConn_append_one, hn]
    omega

lemma ND_bump (m : CMap) (k : ℚ × ℚ) (h : ND m) : ND (bump m k) := by
  intro k'
  rw [keyCount_bump]
  exact h k'

lemma ND_addPair (m : CMap) (p : CityPair) (h : ND m) : ND (addPair m p) := by
  unfold addPair
  exact ND_bump _ _ (ND_ensure _ _ _ (ND_bump _ _ (ND_ensure _ _ _ h)))

lemma sumConn_addPair (m : CMap) (p : CityPair) (h : ND m) :
    sumConn (addPair m p) = sumConn m + 2 := by
  unfold addPair
  have hnd1 : ND (bump (ensure m (key1 p) (node1 p)) (key1 p)) :=
    ND_bump _ _ (ND_ensure _ _ _ h)
  rw [sumConn_bump, keyCount_ensure_self _ _ _ hnd1,
    sumConn_ensure _ _ _ (rfl : (node2 p).connections = 0),
    sumConn_bump, keyCount_ensure_self _ _ _ h,
    sumConn_ensure _ _ _ (rfl : (node1 p).connections = 0)]

lemma getConn_addPair (m : CMap) (p : CityPair) (h : ND m) (k : ℚ × ℚ) :
    getConn (addPair m p) k =
      getConn m k + ((if key1 p = k then 1 else 0) + (if key2 p = k then 1 else 0)) := by
  unfold addPair
  have hnd1 : ND (bump (ensure m (key1 p) (node1 p)) (key1 p)) :=
    ND_bump _ _ (ND_ensure _ _ _ h)
  rw [getConn_bump, getConn_ensure _ _ _ (rfl : (node2 p).connections = 0),
    getConn_bump, getConn_ensure _ _ _ (rfl : (node1 p).connections = 0)]
  have e1 : (if k = key1 p then keyCount (ensure m (key1 p) (node1 p)) k else 0) =
      (if key1 p = k then 1 else 0) := by
    by_cases h1 : k = key1 p
    · rw [if_pos h1, if_pos h1.symm, h1, keyCount_ensure_self _ _ _ h]
    · rw [if_neg h1, if_neg (fun hc => h1 hc.symm)]
  have e2 : (if k = key2 p then
      keyCount (ensure (bump (ensure m (key1 p) (node1 p)) (key1 p)) (key2 p) (node2 p)) k
      else 0) = (if key2 p = k then 1 else 0) := by
    by_cases h2 : k = key2 p
    · rw [if_pos h2, if_pos h2.symm, h2, keyCount_ensure_self _ _ _ hnd1]
    · rw [if_neg h2, if_neg (fun hc => h2 hc.symm)]
  rw [e1, e2]
  omega

lemma touchSlots_cons (p : CityPair) (l : List CityPair) (k : ℚ × ℚ) :
    touchSlots (p :: l) k =
      ((if key1 p = k then 1 else 0) + (if key2 p = k then 1 else 0)) + touchSlots l k := by
  simp [touchSlots]

lemma ND_buildFrom (m : CMap) (l : List CityPair) (h : ND m) : ND (buildFrom m l) := by
  induction l generalizing m with
  | nil => exact h
  | cons p l ih => exact ih (addPair m p) (ND_addPair m p h)

lemma sumConn_buildFrom (m : CMap) (l : List CityPair) (h : ND m) :
    sumConn (buildFrom m l) = sumConn m + 2 * l.length := by
  induction l generalizing m with
  | nil => simp [buildFrom]
  | cons p l ih =>
    show sumConn (buildFrom (addPair m p) l) = _
    rw [ih (addPair m p) (ND_addPair m p h), sumConn_addPair m p h]
    simp [List.length_cons]
    ring

lemma getConn_buildFrom (m : CMap) (l : List CityPair) (h : ND m) (k : ℚ × ℚ) :
    getConn (buildFrom m l) k = getConn m k + touchSlots l k := by
  induction l generalizing m with
  | nil => simp [buildFrom, touchSlots]
  | cons p l ih =>
    show getConn (buildFrom (addPair m p) l) k = _
    rw [ih (addPair m p) (ND_addPair m p h), getConn_addPair m p h, touchSlots_cons]
    ring

lemma ND_nil : ND [] := by
  intro k
  simp [keyCount]

lemma getConn_buildCities (l : List CityPair) (k : ℚ × ℚ) :
    getConn (buildCities l) k = touchSlots l k := by
  rw [buildCities, getConn_buildFrom [] l ND_nil k]
  simp [getConn]

lemma getConn_of_keyCount_zero (m : CMap) (k : ℚ × ℚ) (h : keyCount m k = 0) :
    getConn m k = 0 := by
  induction m with
  | nil => rfl
  | cons e m ih =>
    rw [keyCount_cons] at h
    rw [getConn_cons]
    by_cases he : e.1 = k
    · rw [if_pos he] at h
      omega
    · rw [if_neg he] at h ⊢
      rw [ih (by omega)]

lemma lookupNode_getConn (m : CMap) (k : ℚ × ℚ) (n : CityNode) (hnd : ND m)
    (h : lookupNode m k = some n) : getConn m k = n.connections := by
  induction m with
  | nil => simp [lookupNode] at h
  | cons e m ih =>
    rw [getConn_cons]
    by_cases he : e.1 = k
    · have hn : n = e.2 := by
        simp [lookupNode, List.find?_cons, he] at h
        exact h.symm
      have hcnt := hnd k
      rw [keyCount_cons, if_pos he] at hcnt
      rw [if_pos he, getConn_of_keyCount_zero m k (by omega), hn]
      omega
    · have h' : lookupNode m k = some n := by
        simpa [lookupNode, List.find?_cons, he] using h
      rw [if_neg he, ih (ND_tail e m hnd) h']
      simp

lemma lookupNode_mem (m : CMap) (k : ℚ × ℚ) (n : CityNode)
    (h : lookupNode m k = some n) : ∃ e ∈ m, e.1 = k ∧ e.2 = n := by
  unfold lookupNode at h
  rw [Option.map_eq_some'] at h
  obtain ⟨e, he, hn⟩ := h
  refine ⟨e, List.mem_of_find?_eq_some he, ?_, hn⟩
  have := List.find?_some he
  simpa using this

lemma coords_bump (m : CMap) (kb : ℚ × ℚ)
    (h : ∀ e ∈ m, e.2.coords = (e.1.2, e.1.1)) :
    ∀ e ∈ bump m kb, e.2.coords = (e.1.2, e.1.1) := by
  intro e he
  unfold bump at he
  rw [List.mem_map] at he
  obtain ⟨e', he', rfl⟩ := he
  by_cases hb : e'.1 = kb
  · rw [if_pos hb]
    exact h e' he'
  · rw [if_neg hb]
    exact h e' he'

lemma coords_ensure (m : CMap) (k : ℚ × ℚ) (n : CityNode)
    (hn : n.coords = (k.2, k.1)) (h : ∀ e ∈ m, e.2.coords = (e.1.2, e.1.1)) :
    ∀ e ∈ ensure m k n, e.2.coords = (e.1.2, e.1.1) := by
  intro e he
  unfold ensure at he
  split at he
  · exact h e he
  · rw [List.mem_append] at he
    rcases he with he | he
    · exact h e he
    · rw [List.mem_singleton] at he
      rw [he]
      exact hn

lemma coords_addPair (m : CMap) (p : CityPair)
    (h : ∀ e ∈ m, e.2.coords = (e.1.2, e.1.1)) :
    ∀ e ∈ addPair m p, e.2.coords = (e.1.2, e.1.1) := by
  unfold addPair
  exact coords_bump _ _ (coords_ensure _ _ _ rfl (coords_bump _ _ (coords_ensure _ _ _ rfl h)))

lemma coords_buildCities (l : List CityPair) :
    ∀ e ∈ buildCities l, e.2.coords = (e.1.2, e.1.1) := by
  unfold buildCities
  generalize hm : ([] : CMap) = m
  have hbase : ∀ e ∈ m, e.2.coords = (e.1.2, e.1.1) := by
    rw [← hm]
    intro e he
    simp at he
  clear hm
  induction l generalizing m with
  | nil => exact hbase
  | cons p l ih => exact ih (addPair m p) (coords_addPair m p hbase)

lemma touchSlots_split (l : List CityPair) (k : ℚ × ℚ) :
    touchSlots l k = touchCount l k + selfCount l k := by
  induction l with
  | nil => rfl
  | cons p l ih =>
    rw [touchSlots_cons]
    unfold touchCount selfCount at ih ⊢
    by_cases h1 : key1 p = k <;> by_cases h2 : key2 p = k <;>
      simp only [List.filter_cons, h1, h2, decide_eq_true_eq, if_pos, if_neg,
        or_true, true_or, and_self, decide_True, decide_False, List.length_cons] <;>
      simp [h1, h2, ih] <;> omega

/-- The filter of `findPairsForCity` at a node whose `coords` are `(k.2, k.1)`
selects exactly the pairs touching key `k`. -/
lemma findPairs_length (l : List CityPair) (n : CityNode) (k : ℚ × ℚ)
    (hc : n.coords = (k.2, k.1)) :
    (findPairsForCity l n).length = touchCount l k := by
  unfold findPairsForCity touchCount
  congr 1
  apply List.filter_congr
  intro p _
  rw [hc]
  simp only [decide_eq_decide]
  unfold key1 key2
  constructor
  · rintro (⟨h1, h2⟩ | ⟨h1, h2⟩)
    · exact Or.inl (by rw [Prod.ext_iff]; exact ⟨h2, h1⟩)
    · exact Or.inr (by rw [Prod.ext_iff]; exact ⟨h2, h1⟩)
  · rintro (h | h) <;> rw [Prod.ext_iff] at h
    · exact Or.inl ⟨h.2, h.1⟩
    · exact Or.inr ⟨h.2, h.1⟩

/-! ### C2: the connection-count sum invariant -/

/-- Claim C2: The node builder yields a node map in which the connection
counts sum to twice the number of filtered pairs; appending a self-loop
pair (both endpoints sharing one coordinate key) increments that single
node's connection count by two. -/
theorem c2_sum_connections (l : List CityPair) :
    sumConn (buildCities l) = 2 * l.length ∧
    ∀ p : CityPair, key1 p = key2 p →
      getConn (buildCities (l ++ [p])) (key1 p) =
        getConn (buildCities l) (key1 p) + 2 := by
  constructor
  · rw [buildCities, sumConn_buildFrom [] l ND_nil]
    simp [sumConn]
  · intro p hself
    rw [getConn_buildCities, getConn_buildCities]
    unfold touchSlots
    rw [List.map_append, List.sum_append]
    simp [← hself]

/-- Witness for C2's self-loop clause at a concrete self-loop pair. -/
theorem c2_sum_connections_witness :
    key1 pairSelf = key2 pairSelf ∧
    getConn (buildCities ([] ++ [pairSelf])) (key1 pairSelf) =
      getConn (buildCities []) (key1 pairSelf) + 2 :=
  ⟨by decide, (c2_sum_connections []).2 pairSelf (by decide)⟩

/-! ### C6: permutation invariance -/

/-- Claim C6 counterexample: Reordering the filtered pairs changes an
observable output of the node builder: the node stored at key `(10, 10)`
is named `"A"` in one order and `"A2"` in the other, because a node's name
and country are taken from the first pair that inserts its key. -/
theorem c6_counterexample :
    [pairAB, pairA2C].Perm [pairA2C, pairAB] ∧
    (lookupNode (buildCities [pairAB, pairA2C]) (10, 10)).map CityNode.name =
      some "A" ∧
    (lookupNode (buildCities [pairA2C, pairAB]) (10, 10)).map CityNode.name =
      some "A2" :=
  ⟨by decide, by decide, by decide⟩

/-- Claim C6, amended: Every permutation of the filtered pair list yields the
same connection count for every coordinate key (commutative accumulation);
but iteration order *can* change which name and country a node carries when
the same coordinate key occurs with different name fields, as well as the
order of the produced node array. -/
theorem c6_perm_preserves_counts (l l' : List CityPair) (hp : l.Perm l')
    (k : ℚ × ℚ) : getConn (buildCities l) k = getConn (buildCities l') k := by
  rw [getConn_buildCities, getConn_buildCities]
  unfold touchSlots
  exact List.Perm.sum_eq (hp.map _)

/-- Witness for C6 (amended) at a concrete two-pair permutation. -/
theorem c6_perm_preserves_counts_witness :
    [pairAB, pairA2C].Perm [pairA2C, pairAB] ∧
    getConn (buildCities [pairAB, pairA2C]) (10, 10) =
      getConn (buildCities [pairA2C, pairAB]) (10, 10) :=
  ⟨by decide, c6_perm_preserves_counts [pairAB, pairA2C] [pairA2C, pairAB] (by decide) (10, 10)⟩

/-! ### C10: connection count versus the pair list of a city -/

/-- Claim C10: For every node the builder stores, its connection count equals
the number of filtered pairs touching the node's coordinate plus the number
of self-loop pairs there; hence the length of `findPairsForCity`'s result
(the Selection's pair count) equals `connections` exactly when the node has
no self-loop pairs and is strictly smaller otherwise. -/
theorem c10_connection_count_vs_pairs (l : List CityPair) (k : ℚ × ℚ)
    (n : CityNode) (h : lookupNode (buildCities l) k = some n) :
    n.connections = (findPairsForCity l n).length + selfCount l k ∧
    (selfCount l k = 0 → n.connections = (findPairsForCity l n).length) ∧
    (0 < selfCount l k → (findPairsForCity l n).length < n.connections) := by
  have hnd : ND (buildCities l) := ND_buildFrom [] l ND_nil
  have hconn : getConn (buildCities l) k = n.connections :=
    lookupNode_getConn _ _ _ hnd h
  have hcoords : n.coords = (k.2, k.1) := by
    obtain ⟨e, he, hk, hn⟩ := lookupNode_mem _ _ _ h
    rw [← hn, coords_buildCities l e he, hk]
  have hlen := findPairs_length l n k hcoords
  have hts := touchSlots_split l k
  rw [getConn_buildCities] at hconn
  exact ⟨by omega, fun h0 => by omega, fun h0 => by omega⟩

/-- Witness for C10 at a list with one self-loop and one ordinary pair. -/
theorem c10_connection_count_vs_pairs_witness :
    lookupNode (buildCities [pairSelf, pairAB]) (10, 10) = some nodeA3 ∧
    0 < selfCount [pairSelf, pairAB] (10, 10) ∧
    (findPairsForCity [pairSelf, pairAB] nodeA3).length < nodeA3.connections :=
  ⟨by decide, by decide,
    (c10_connection_count_vs_pairs [pairSelf, pairAB] (10, 10) nodeA3
      (by decide)).2.2 (by decide)⟩

/-! ### Label-placement lemmas (towards C1 and C7) -/

lemma find?_of_first {α : Type} (p : α → Bool) (l : List α) (k : ℕ) (a : α)
    (hget : l[k]? = some a) (hpa : p a = true)
    (hfirst : ∀ j b, j < k → l[j]? = some b → p b = false) :
    l.find? p = some a := by
  induction l generalizing k with
  | nil => simp at hget
  | cons c t ih =>
    cases k with
    | zero =>
      rw [List.getElem?_cons_zero, Option.some_inj] at hget
      subst hget
      exact List.find?_cons_of_pos _ hpa
    | succ k =>
      have hc : p c = false := hfirst 0 c (Nat.succ_pos k) List.getElem?_cons_zero
      rw [List.find?_cons_of_neg _ (by simp [hc])]
      refine ih k (by simpa using hget) ?_
      intro j b hj hb
      exact hfirst (j + 1) b (by omega) (by simpa using hb)

lemma placeOne_of_candidate (placed : List LRect) (c : Anchor) (o : ℚ × ℚ)
    (hfind : (offsets (labelW c.name)).find?
      (fun o => !anyOverlap placed (c.px + o.1) (c.py + o.2) (labelW c.name)) = some o) :
    placeOne placed c = ⟨c.px + o.1, c.py + o.2, labelW c.name, lh⟩ := by
  unfold placeOne
  simp only [hfind]

lemma placeOne_of_fallback (placed : List LRect) (c : Anchor) (dy : ℚ)
    (hnone : (offsets (labelW c.name)).find?
      (fun o => !anyOverlap placed (c.px + o.1) (c.py + o.2) (labelW c.name)) = none)
    (hfind : (scanDys 200 0).find?
      (fun dy => !anyOverlap placed (c.px + 7) (c.py + dy) (labelW c.name)) = some dy) :
    placeOne placed c = ⟨c.px + 7, c.py + dy, labelW c.name, lh⟩ := by
  unfold placeOne
  simp only [hnone, hfind]

lemma sep_of_anyOverlap_false (placed : List LRect) (cx cy lw : ℚ)
    (h : anyOverlap placed cx cy lw = false) :
    ∀ r ∈ placed, sepRect r ⟨cx, cy, lw, lh⟩ := by
  intro r hr
  unfold anyOverlap at h
  rw [List.any_eq_false] at h
  have h2 := h r hr
  simp only [overlapsB, Bool.and_eq_true, decide_eq_true_eq, not_and_or, not_lt] at h2
  unfold sepRect
  dsimp only
  tauto

lemma stepPlace_pairwise (placed : List LRect) (c : Anchor)
    (hok : (((offsets (labelW c.name)).find?
        fun o => !anyOverlap placed (c.px + o.1) (c.py + o.2) (labelW c.name)).isSome ||
      ((scanDys 200 0).find?
        fun dy => !anyOverlap placed (c.px + 7) (c.py + dy) (labelW c.name)).isSome) = true)
    (hpw : placed.Pairwise sepRect) :
    (stepPlace placed c).Pairwise sepRect := by
  have hsep : ∀ r ∈ placed, sepRect r (placeOne placed c) := by
    cases hfo : (offsets (labelW c.name)).find?
        (fun o => !anyOverlap placed (c.px + o.1) (c.py + o.2) (labelW c.name)) with
    | some o =>
      rw [placeOne_of_candidate placed c o hfo]
      have hfree := List.find?_some hfo
      rw [Bool.not_eq_true'] at hfree
      exact sep_of_anyOverlap_false _ _ _ _ hfree
    | none =>
      rw [hfo] at hok
      simp only [Option.isSome_none, Bool.false_or] at hok
      obtain ⟨dy, hdy⟩ := Option.isSome_iff_exists.mp hok
      rw [placeOne_of_fallback placed c dy hfo hdy]
      have hfree := List.find?_some hdy
      rw [Bool.not_eq_true'] at hfree
      exact sep_of_anyOverlap_false _ _ _ _ hfree
  unfold stepPlace
  rw [List.pairwise_append]
  refine ⟨hpw, List.pairwise_singleton _ _, ?_⟩
  intro a ha b hb
  rw [List.mem_singleton] at hb
  rw [hb]
  exact hsep a ha

lemma placeFrom_pairwise (l : List Anchor) (placed : List LRect)
    (hok : allOkB placed l = true) (hpw : placed.Pairwise sepRect) :
    (placeFrom placed l).Pairwise sepRect := by
  induction l generalizing placed with
  | nil => exact hpw
  | cons c l ih =>
    rw [allOkB, Bool.and_eq_true] at hok
    exact ih (stepPlace placed c) hok.2 (stepPlace_pairwise placed c hok.1 hpw)

lemma sep_not_overlapMore (r s : LRect) (h : sepRect r s) :
    ¬overlapMoreThanPad r s := by
  unfold sepRect at h
  unfold overlapMoreThanPad
  rw [show pad = 2 from rfl] at h ⊢
  rintro ⟨h1, h2, h3, h4⟩
  rcases h with h | h | h | h <;> linarith

lemma placeFrom_append_eq (placed : List LRect) (l₁ l₂ : List Anchor) :
    placeFrom placed (l₁ ++ l₂) = placeFrom (placeFrom placed l₁) l₂ :=
  List.foldl_append _ _ _ _

lemma placeFrom_grow (l : List Anchor) (placed : List LRect) :
    ∃ rest, placeFrom placed l = placed ++ rest := by
  induction l generalizing placed with
  | nil => exact ⟨[], by simp [placeFrom]⟩
  | cons c l ih =>
    obtain ⟨rest, hrest⟩ := ih (stepPlace placed c)
    refine ⟨[placeOne placed c] ++ rest, ?_⟩
    show placeFrom (stepPlace placed c) l = _
    rw [hrest, stepPlace, List.append_assoc]

lemma placeFrom_length (l : List Anchor) (placed : List LRect) :
    (placeFrom placed l).length = placed.length + l.length := by
  induction l generalizing placed with
  | nil => simp [placeFrom]
  | cons c l ih =>
    show (placeFrom (stepPlace placed c) l).length = _
    rw [ih (stepPlace placed c), stepPlace]
    simp
    omega

/-! ### C1: non-overlap of placed label rectangles -/

set_option maxRecDepth 8000 in
set_option maxHeartbeats 1000000 in
/-- Claim C1 counterexample: Sixteen labels anchored at one projected point
exhaust the eight candidate offsets and all twelve bounded fallback slots
(`dy < 200`): the sixteenth label falls back to the default position
`(px + 7, py - 8)` already taken by the first label, so the placed set
contains two coincident rectangles — overlapping far beyond the padding.
The bounded downward scan does *not* always end with a non-overlapping
position. -/
theorem c1_counterexample :
    (placeAll anchors16)[0]? = some ⟨7, -8, 25, 15⟩ ∧
    (placeAll anchors16)[15]? = some ⟨7, -8, 25, 15⟩ ∧
    overlapMoreThanPad ⟨7, -8, 25, 15⟩ ⟨7, -8, 25, 15⟩ := by
  have heval : placeAll anchors16 =
      [⟨7, -8, 25, 15⟩, ⟨-30, -8, 25, 15⟩, ⟨7, -25, 25, 15⟩, ⟨7, 23, 25, 15⟩,
       ⟨-30, -25, 25, 15⟩, ⟨-30, 23, 25, 15⟩, ⟨7, 51, 25, 15⟩, ⟨7, 68, 25, 15⟩,
       ⟨7, 85, 25, 15⟩, ⟨7, 102, 25, 15⟩, ⟨7, 119, 25, 15⟩, ⟨7, 136, 25, 15⟩,
       ⟨7, 153, 25, 15⟩, ⟨7, 170, 25, 15⟩, ⟨7, 187, 25, 15⟩, ⟨7, -8, 25, 15⟩] := by
    norm_num [anchors16, placeAll, placeFrom, stepPlace, placeOne, offsets, anyOverlap,
      overlapsB, labelW, lh, pad, scanDys, List.find?, List.any, List.replicate,
      show "ab".length = 2 from rfl]
  refine ⟨by rw [heval]; rfl, by rw [heval]; rfl, ?_⟩
  norm_num [overlapMoreThanPad, pad]

/-- Claim C1, amended: Whenever every label of the pass finds a free slot
(one of the eight candidates or one of the bounded fallback slots passes
the overlap test — which can only fail when some twenty slots around an
anchor are all taken), the placed rectangles are pairwise non-overlapping:
no two of them overlap by more than the padding; a label for which both
searches fail keeps its default position and may overlap. -/
theorem c1_labels_disjoint (l : List Anchor) (hok : allOkB [] l = true) :
    (placeAll l).Pairwise (fun r s => ¬overlapMoreThanPad r s) :=
  (placeFrom_pairwise l [] hok List.Pairwise.nil).imp
    (fun h => sep_not_overlapMore _ _ h)

/-- Witness for C1 (amended) at a concrete two-anchor pass. -/
theorem c1_labels_disjoint_witness :
    allOkB [] anchors2 = true ∧
    (placeAll anchors2).Pairwise (fun r s => ¬overlapMoreThanPad r s) := by
  have hok : allOkB [] anchors2 = true := by
    norm_num [anchors2, allOkB, stepPlace, placeOne, offsets, anyOverlap, overlapsB,
      labelW, lh, pad, List.find?, List.any,
      show "ab".length = 2 from rfl, show "cd".length = 2 from rfl]
  exact ⟨hok, c1_labels_disjoint anchors2 hok⟩

/-! ### C7: first-free-candidate selection, earlier labels never revised -/

/-- Claim C7: First conjunct: the rectangles placed for an initial segment of
the input are unaffected by the anchors processed after it (earlier nodes'
placements are never revised).  Second conjunct: whenever some of the eight
fixed candidate offsets (in source order: right-above, right-below,
left-above, left-below, then the same four one tier further) is free with
respect to the previously placed rectangles, the label is placed at the
*first* free one. -/
theorem c7_first_free_candidate :
    (∀ l₁ l₂ : List Anchor,
      (placeAll (l₁ ++ l₂)).take l₁.length = placeAll l₁) ∧
    (∀ (placed : List LRect) (c : Anchor) (k : ℕ) (o : ℚ × ℚ),
      (offsets (labelW c.name))[k]? = some o →
      anyOverlap placed (c.px + o.1) (c.py + o.2) (labelW c.name) = false →
      (∀ j o', j < k → (offsets (labelW c.name))[j]? = some o' →
        anyOverlap placed (c.px + o'.1) (c.py + o'.2) (labelW c.name) = true) →
      placeOne placed c = ⟨c.px + o.1, c.py + o.2, labelW c.name, lh⟩) := by
  constructor
  · intro l₁ l₂
    unfold placeAll
    rw [placeFrom_append_eq]
    obtain ⟨rest, hrest⟩ := placeFrom_grow l₂ (placeFrom [] l₁)
    rw [hrest]
    have hlen : (placeFrom [] l₁).length = l₁.length := by
      rw [placeFrom_length]
      simp
    rw [← hlen, List.take_left]
  · intro placed c k o hget hfree hfirst
    apply placeOne_of_candidate
    apply find?_of_first _ _ k
    · exact hget
    · rw [Bool.not_eq_true']
      exact hfree
    · intro j b hj hb
      rw [Bool.not_eq_false']
      exact hfirst j b hj hb

/-- Witness for C7: the first candidate offset `(7, -8)` is free for the
first label of a pass, and the placed rectangle of an initial segment is
stable under appending more anchors. -/
theorem c7_first_free_candidate_witness :
    (placeAll (anchors2 ++ anchors2)).take anchors2.length = placeAll anchors2 ∧
    placeOne [] ⟨"ab", 0, 0⟩ = ⟨(0 : ℚ) + 7, (0 : ℚ) + -8, labelW "ab", lh⟩ :=
  ⟨c7_first_free_candidate.1 anchors2 anchors2,
   c7_first_free_candidate.2 [] ⟨"ab", 0, 0⟩ 0 (7, -8) rfl rfl
     (fun j _ hj _ => absurd hj (Nat.not_lt_zero j))⟩

end TwinCities
